import Mathlib

/-!
Shallow embedding of the es-ticket-health-tracker analytics core
(src/app/services.py, src/app/models.py, src/app/components.py) and
proofs about it.

Conventions of the embedding:
* Python `datetime` values are modelled as a calendar `Date` plus a
  `Time` of day (hour/minute/second/microsecond), compared
  lexicographically; `None`-able columns are `Option`s.
* Python `Decimal` and `float` are both modelled as `ℚ`.
* A SQL table is a list of rows in storage (insertion) order; a Python
  `dict` is an association list in insertion order, with in-place update
  on an existing key and append on a new key.
-/

/-- A calendar date, as produced by Python `datetime.date()`. -/
structure Date where
  year : Nat
  month : Nat
  day : Nat
deriving DecidableEq, Repr

/-- A time of day, as carried by a Python `datetime`. -/
structure Time where
  hour : Nat
  minute : Nat
  second : Nat
  microsecond : Nat
deriving DecidableEq, Repr

/-- A Python `datetime`: a calendar date plus a time of day. -/
structure DateTime where
  date : Date
  time : Time
deriving DecidableEq, Repr

/-- Strict lexicographic order on dates (year, then month, then day). -/
def Date.lt (a b : Date) : Prop :=
  a.year < b.year ∨ (a.year = b.year ∧
    (a.month < b.month ∨ (a.month = b.month ∧ a.day < b.day)))

/-- Non-strict lexicographic order on dates. -/
def Date.le (a b : Date) : Prop :=
  a.year < b.year ∨ (a.year = b.year ∧
    (a.month < b.month ∨ (a.month = b.month ∧ a.day ≤ b.day)))

/-- Non-strict lexicographic order on times of day. -/
def Time.le (a b : Time) : Prop :=
  a.hour < b.hour ∨ (a.hour = b.hour ∧
    (a.minute < b.minute ∨ (a.minute = b.minute ∧
      (a.second < b.second ∨ (a.second = b.second ∧
        a.microsecond ≤ b.microsecond)))))

/-- Non-strict order on `datetime`s: date first, then time of day. -/
def DateTime.le (a b : DateTime) : Prop :=
  Date.lt a.date b.date ∨ (a.date = b.date ∧ Time.le a.time b.time)

instance (a b : Date) : Decidable (Date.lt a b) := by
  unfold Date.lt; infer_instance

instance (a b : Date) : Decidable (Date.le a b) := by
  unfold Date.le; infer_instance

instance (a b : Time) : Decidable (Time.le a b) := by
  unfold Time.le; infer_instance

instance (a b : DateTime) : Decidable (DateTime.le a b) := by
  unfold DateTime.le; infer_instance

/-- A `Time` that a real Python `datetime` can carry: every component in
its legal range. -/
def Time.valid (t : Time) : Prop :=
  t.hour ≤ 23 ∧ t.minute ≤ 59 ∧ t.second ≤ 59 ∧ t.microsecond ≤ 999999

instance (t : Time) : Decidable (Time.valid t) := by
  unfold Time.valid; infer_instance

/-- Python `datetime.min.time()`, i.e. `00:00:00.000000`. -/
def Time.min : Time := ⟨0, 0, 0, 0⟩

/-- Python `datetime.max.time()`, i.e. `23:59:59.999999`. -/
def Time.max : Time := ⟨23, 59, 59, 999999⟩

/-- Decimal rendering zero-padded to two digits, as in ISO dates. -/
def pad2 (n : Nat) : String :=
  if n < 10 then "0" ++ toString n else toString n

/-- Decimal rendering zero-padded to four digits, as in ISO years. -/
def pad4 (n : Nat) : String :=
  if n < 10 then "000" ++ toString n
  else if n < 100 then "00" ++ toString n
  else if n < 1000 then "0" ++ toString n
  else toString n

/-- Python `date.isoformat()`: `YYYY-MM-DD`. -/
def Date.isoformat (d : Date) : String :=
  pad4 d.year ++ "-" ++ pad2 d.month ++ "-" ++ pad2 d.day

/-- Python `time.isoformat()` as used inside `datetime.isoformat()`:
`HH:MM:SS`, with `.ffffff` appended when the microsecond is nonzero. -/
def Time.isoformat (t : Time) : String :=
  let base := pad2 t.hour ++ ":" ++ pad2 t.minute ++ ":" ++ pad2 t.second
  if t.microsecond = 0 then base
  else base ++ "." ++ pad4 (t.microsecond / 100) ++ pad2 (t.microsecond % 100)

/-- Python `datetime.isoformat()`: date, `T`, time. -/
def DateTime.isoformat (dt : DateTime) : String :=
  dt.date.isoformat ++ "T" ++ dt.time.isoformat

/-- The `es_tickets` row (src/app/models.py `ESTicket`), restricted to
the columns the analytics and flagging services read. -/
structure ESTicket where
  id : Nat
  key : String
  summary : String
  status : String
  created : DateTime
  updated : DateTime
  assignee : Option String
  eng_team : Option String
  severity : Option String
  mitigated_date : Option DateTime
  resolved_date : Option DateTime
  time_to_resolve_hours : Option ℚ
deriving DecidableEq, Repr

/-- src/app/models.py `FilterParams`. -/
structure FilterParams where
  date_start : Option DateTime
  date_end : Option DateTime
  teams : Option (List String)
  severities : Option (List String)
  statuses : Option (List String)
deriving DecidableEq, Repr

/-- The all-`None` `FilterParams()`. -/
def FilterParams.empty : FilterParams := ⟨none, none, none, none, none⟩

/-- src/app/components.py `FilterState`: the UI-side filter fields
(the callback list is irrelevant to the data path and omitted). -/
structure FilterState where
  date_start : Option Date
  date_end : Option Date
  teams : List String
  severities : List String
  statuses : List String
deriving DecidableEq, Repr

/-- src/app/components.py `FilterState.to_filter_params`: start dates
become midnight, end dates become `datetime.max.time()` of the same day,
and empty lists become `None`. -/
def FilterState.to_filter_params (s : FilterState) : FilterParams where
  date_start := s.date_start.map (fun d => ⟨d, Time.min⟩)
  date_end := s.date_end.map (fun d => ⟨d, Time.max⟩)
  teams := if s.teams.isEmpty then none else some s.teams
  severities := if s.severities.isEmpty then none else some s.severities
  statuses := if s.statuses.isEmpty then none else some s.statuses

/-- Python truthiness of an `Optional[List[str]]`: `None` and `[]` are
falsy. -/
def listTruthy (o : Option (List String)) : Bool :=
  match o with
  | none => false
  | some l => !l.isEmpty

/-- SQL `col.in_(values)` on a nullable column: `NULL` never matches. -/
def optMem (v : Option String) (values : List String) : Bool :=
  match v with
  | none => false
  | some s => values.contains s

/-- The conjunction of conditions built by
`TicketService.get_filtered_tickets` (src/app/services.py lines 29-51)
for one row: date range on `created`, team, severity and status
membership, each applied only when the filter field is truthy. -/
def ticketMatches (f : FilterParams) (t : ESTicket) : Bool :=
  (match f.date_start with
   | none => true
   | some ds => decide (DateTime.le ds t.created)) &&
  (match f.date_end with
   | none => true
   | some de => decide (DateTime.le t.created de)) &&
  (if listTruthy f.teams then optMem t.eng_team (f.teams.getD []) else true) &&
  (if listTruthy f.severities then optMem t.severity (f.severities.getD []) else true) &&
  (if listTruthy f.statuses then (f.statuses.getD []).contains t.status else true)

namespace TicketService

/-- src/app/services.py `TicketService.get_filtered_tickets`: the rows
of the store, in storage order, that satisfy every built condition. -/
def get_filtered_tickets (store : List ESTicket) (f : FilterParams) :
    List ESTicket :=
  store.filter (ticketMatches f)

end TicketService

/-- Python `round(x, 2)` on the exact value: round half to even at the
second decimal place. -/
def roundHalfEven (q : ℚ) : ℤ :=
  let f := ⌊q⌋
  if q - f < 1/2 then f
  else if 1/2 < q - f then f + 1
  else if f % 2 = 0 then f else f + 1

/-- Round a rational to two decimal places, half to even. -/
def round2 (q : ℚ) : ℚ := (roundHalfEven (q * 100) : ℚ) / 100

/-- src/app/models.py `KPIData`. -/
structure KPIData where
  tickets_created : Nat
  tickets_mitigated : Nat
  open_tickets : Nat
  avg_time_to_resolve_hours : Option ℚ
deriving DecidableEq, Repr

/-- The conjunction of `base_conditions` built by
`TicketService.get_kpi_data` (src/app/services.py lines 60-82); the code
rebuilds the same five conditions as `get_filtered_tickets`, and this
definition mirrors that second copy. -/
def kpiRowMatches (f : FilterParams) (t : ESTicket) : Bool :=
  (match f.date_start with
   | none => true
   | some ds => decide (DateTime.le ds t.created)) &&
  (match f.date_end with
   | none => true
   | some de => decide (DateTime.le t.created de)) &&
  (if listTruthy f.teams then optMem t.eng_team (f.teams.getD []) else true) &&
  (if listTruthy f.severities then optMem t.severity (f.severities.getD []) else true) &&
  (if listTruthy f.statuses then (f.statuses.getD []).contains t.status else true)

namespace TicketService

/-- src/app/services.py `TicketService.get_kpi_data` (lines 56-110):
counts over the rows matching `base_conditions`, and the average of
`time_to_resolve_hours` over the rows where it is present, rounded to
two decimals, or `None` when there is no such row. -/
def get_kpi_data (store : List ESTicket) (f : FilterParams) : KPIData :=
  let tickets := store.filter (kpiRowMatches f)
  let tickets_created := tickets.length
  let tickets_mitigated := (tickets.filter (fun t => t.mitigated_date.isSome)).length
  let open_tickets := (tickets.filter (fun t => t.resolved_date.isNone)).length
  let resolved_tickets := tickets.filter (fun t => t.time_to_resolve_hours.isSome)
  let avg_time_to_resolve_hours : Option ℚ :=
    if resolved_tickets.isEmpty then none
    else
      let total := (resolved_tickets.filterMap (fun t => t.time_to_resolve_hours)).sum
      some (round2 (total / resolved_tickets.length))
  ⟨tickets_created, tickets_mitigated, open_tickets, avg_time_to_resolve_hours⟩

end TicketService

/-!
Association lists in insertion order: the model of a Python `dict`.
`updD m k d f` is the pattern `if k not in m: m[k] = d` followed by
`m[k] = f(m[k])`; `lookD m k d` is `m.get(k, d)`; `keys m` is
`list(m.keys())`.
-/

/-- Update key `k` in place, appending `(k, f d)` when absent. -/
def updD (m : List (String × β)) (k : String) (d : β) (f : β → β) :
    List (String × β) :=
  match m with
  | [] => [(k, f d)]
  | (k2, v) :: rest =>
    if k2 = k then (k2, f v) :: rest else (k2, v) :: updD rest k d f

/-- Lookup with a default. -/
def lookD (m : List (String × β)) (k : String) (d : β) : β :=
  match m with
  | [] => d
  | (k2, v) :: rest => if k2 = k then v else lookD rest k d

/-- The key list of an association list, in insertion order. -/
def keys (m : List (String × β)) : List String := m.map Prod.fst

/-- Sum of a numeric projection of the values. -/
def sumBy (g : β → Nat) (m : List (String × β)) : Nat :=
  (m.map (fun p => g p.2)).sum

theorem lookD_updD_self (m : List (String × β)) (k : String) (d : β)
    (f : β → β) : lookD (updD m k d f) k d = f (lookD m k d) := by
  induction m with
  | nil => simp [updD, lookD]
  | cons p rest ih =>
    obtain ⟨k2, v⟩ := p
    by_cases h : k2 = k
    · simp [updD, lookD, h]
    · simp [updD, lookD, h, ih]

theorem lookD_updD_ne (m : List (String × β)) (k k2 : String) (d d2 : β)
    (f : β → β) (h : k2 ≠ k) :
    lookD (updD m k d f) k2 d2 = lookD m k2 d2 := by
  have hk : k ≠ k2 := fun he => h he.symm
  induction m with
  | nil => simp [updD, lookD, hk]
  | cons p rest ih =>
    obtain ⟨k3, v⟩ := p
    by_cases h3 : k3 = k
    · subst h3
      simp [updD, lookD, hk]
    · by_cases h2 : k3 = k2
      · subst h2
        simp [updD, lookD, h3]
      · simp [updD, lookD, h3, h2, ih]

theorem mem_keys_updD (m : List (String × β)) (k a : String) (d : β)
    (f : β → β) :
    a ∈ keys (updD m k d f) ↔ a ∈ keys m ∨ a = k := by
  induction m with
  | nil => simp [updD, keys]
  | cons p rest ih =>
    obtain ⟨k2, v⟩ := p
    by_cases h : k2 = k
    · subst h
      simp [updD, keys]
      tauto
    · simp [updD, keys, h] at ih ⊢
      tauto

theorem keys_updD_of_mem (m : List (String × β)) (k : String) (d : β)
    (f : β → β) (h : k ∈ keys m) :
    keys (updD m k d f) = keys m := by
  induction m with
  | nil => simp [keys] at h
  | cons p rest ih =>
    obtain ⟨k2, v⟩ := p
    by_cases h2 : k2 = k
    · simp [updD, keys, h2]
    · have hk : k ∈ keys rest := by
        rw [keys, List.map_cons, List.mem_cons] at h
        rcases h with h | h
        · exact absurd h.symm h2
        · exact h
      simp [updD, keys, h2]
      exact ih hk

theorem keys_updD_of_not_mem (m : List (String × β)) (k : String) (d : β)
    (f : β → β) (h : k ∉ keys m) :
    keys (updD m k d f) = keys m ++ [k] := by
  induction m with
  | nil => simp [updD, keys]
  | cons p rest ih =>
    obtain ⟨k2, v⟩ := p
    rw [keys, List.map_cons] at h
    have h1 : ¬k2 = k := by
      intro he
      apply h
      rw [← he]
      exact List.mem_cons_self k2 _
    have h2 : k ∉ keys rest := fun hm => h (List.mem_cons_of_mem _ hm)
    simp [updD, keys, h1]
    exact ih h2

theorem nodup_keys_updD (m : List (String × β)) (k : String) (d : β)
    (f : β → β) (h : (keys m).Nodup) :
    (keys (updD m k d f)).Nodup := by
  by_cases hm : k ∈ keys m
  · rw [keys_updD_of_mem m k d f hm]; exact h
  · rw [keys_updD_of_not_mem m k d f hm]
    simp [List.nodup_append, h, hm]

theorem lookD_eq_of_mem_nodup (m : List (String × β)) (k : String)
    (v d : β) (hnd : (keys m).Nodup) (hmem : (k, v) ∈ m) :
    lookD m k d = v := by
  induction m with
  | nil => simp at hmem
  | cons p rest ih =>
    obtain ⟨k2, v2⟩ := p
    rw [keys, List.map_cons, List.nodup_cons] at hnd
    rcases List.mem_cons.mp hmem with h | h
    · have h1 : k = k2 := congrArg Prod.fst h
      have h2 : v = v2 := congrArg Prod.snd h
      subst h1
      subst h2
      simp [lookD]
    · have hk : k2 ≠ k := by
        intro he
        subst he
        exact hnd.1 (List.mem_map.mpr ⟨(k2, v), h, rfl⟩)
      simp [lookD, hk]
      exact ih hnd.2 h

theorem lookD_foldl_updD (lbl : α → String) (F : α → β → β) (d : β)
    (ts : List α) (m : List (String × β)) (k : String) :
    lookD (ts.foldl (fun acc t => updD acc (lbl t) d (F t)) m) k d
      = (ts.filter (fun t => lbl t == k)).foldl (fun v t => F t v)
          (lookD m k d) := by
  induction ts generalizing m with
  | nil => rfl
  | cons t ts ih =>
    rw [List.foldl_cons, ih]
    by_cases h : lbl t = k
    · subst h
      simp [List.filter_cons, lookD_updD_self]
    · have hne : k ≠ lbl t := fun he => h he.symm
      simp [List.filter_cons, h, lookD_updD_ne _ _ _ _ _ _ hne]

theorem mem_keys_foldl_updD (lbl : α → String) (F : α → β → β) (d : β)
    (ts : List α) (m : List (String × β)) (a : String) :
    a ∈ keys (ts.foldl (fun acc t => updD acc (lbl t) d (F t)) m)
      ↔ a ∈ keys m ∨ ∃ t ∈ ts, lbl t = a := by
  induction ts generalizing m with
  | nil => simp
  | cons t ts ih =>
    rw [List.foldl_cons, ih, mem_keys_updD]
    constructor
    · rintro (⟨h | h⟩ | ⟨t2, ht2, hl⟩)
      · exact Or.inl h
      · exact Or.inr ⟨t, List.mem_cons_self t ts, h.symm⟩
      · exact Or.inr ⟨t2, List.mem_cons_of_mem t ht2, hl⟩
    · rintro (h | ⟨t2, ht2, hl⟩)
      · exact Or.inl (Or.inl h)
      · rcases List.mem_cons.mp ht2 with h2 | h2
        · subst h2
          exact Or.inl (Or.inr hl.symm)
        · exact Or.inr ⟨t2, h2, hl⟩

theorem nodup_keys_foldl_updD (lbl : α → String) (F : α → β → β) (d : β)
    (ts : List α) (m : List (String × β)) (h : (keys m).Nodup) :
    (keys (ts.foldl (fun acc t => updD acc (lbl t) d (F t)) m)).Nodup := by
  induction ts generalizing m with
  | nil => exact h
  | cons t ts ih =>
    rw [List.foldl_cons]
    exact ih _ (nodup_keys_updD _ _ _ _ h)

theorem sumBy_updD (m : List (String × β)) (k : String) (d : β)
    (f : β → β) (g : β → Nat) (hf : ∀ b, g (f b) = g b + 1)
    (hd : g d = 0) :
    sumBy g (updD m k d f) = sumBy g m + 1 := by
  induction m with
  | nil => simp [updD, sumBy, hf, hd]
  | cons p rest ih =>
    obtain ⟨k2, v⟩ := p
    by_cases h : k2 = k
    · simp [updD, sumBy, h, hf]
      omega
    · simp [updD, sumBy, h] at ih ⊢
      omega

theorem sumBy_foldl_updD (lbl : α → String) (F : α → β → β) (d : β)
    (g : β → Nat) (hF : ∀ t b, g (F t b) = g b + 1) (hd : g d = 0)
    (ts : List α) (m : List (String × β)) :
    sumBy g (ts.foldl (fun acc t => updD acc (lbl t) d (F t)) m)
      = sumBy g m + ts.length := by
  induction ts generalizing m with
  | nil => simp
  | cons t ts ih =>
    rw [List.foldl_cons, ih, sumBy_updD _ _ _ _ g (hF t) hd,
      List.length_cons]
    omega

/-!
Daily time-series buckets (src/app/services.py `get_time_series_data`).
-/

/-- src/app/models.py `TimeSeriesPoint`. -/
structure TimeSeriesPoint where
  date : String
  created : Nat
  mitigated : Nat
  resolved : Nat
deriving DecidableEq, Repr

/-- One `daily_data` bucket value
`\x7b"created": 0, "mitigated": 0, "resolved": 0\x7d`. -/
structure DayCounts where
  created : Nat
  mitigated : Nat
  resolved : Nat
deriving DecidableEq, Repr

/-- The freshly inserted all-zero bucket. -/
def DayCounts.zero : DayCounts := ⟨0, 0, 0⟩

/-- The `daily_data` update performed for one ticket by
`get_time_series_data` (src/app/services.py lines 120-139): bump the
`created` counter of the creation-date bucket, then, when present, the
`mitigated` and `resolved` counters of their own date buckets. -/
def tsStep (m : List (String × DayCounts)) (t : ESTicket) :
    List (String × DayCounts) :=
  let m1 := updD m t.created.date.isoformat DayCounts.zero
    (fun c => { c with created := c.created + 1 })
  let m2 := match t.mitigated_date with
    | some dt => updD m1 dt.date.isoformat DayCounts.zero
        (fun c => { c with mitigated := c.mitigated + 1 })
    | none => m1
  match t.resolved_date with
  | some dt => updD m2 dt.date.isoformat DayCounts.zero
      (fun c => { c with resolved := c.resolved + 1 })
  | none => m2

namespace TicketService

/-- src/app/services.py `TicketService.get_time_series_data` (lines
112-151): fold the filtered tickets into `daily_data`, then emit one
point per bucket in ascending ISO-date-string order. -/
def get_time_series_data (store : List ESTicket) (f : FilterParams) :
    List TimeSeriesPoint :=
  let tickets := get_filtered_tickets store f
  let daily := tickets.foldl tsStep []
  let sortedDates := (keys daily).insertionSort (fun a b => a ≤ b)
  sortedDates.map (fun ds =>
    let c := lookD daily ds DayCounts.zero
    ⟨ds, c.created, c.mitigated, c.resolved⟩)

end TicketService

/-!
Status-by-severity cross-tab (src/app/services.py
`get_stacked_bar_data`).
-/

/-- src/app/models.py `StackedBarData`; the inner dict is an
association list in insertion order. -/
structure StackedBarData where
  status : String
  severity_counts : List (String × Nat)
deriving DecidableEq, Repr

/-- Python `ticket.severity or "Unknown"`: `None` and the empty string
are falsy and replaced by `"Unknown"`. -/
def sevLabel (t : ESTicket) : String :=
  match t.severity with
  | none => "Unknown"
  | some s => if s = "" then "Unknown" else s

/-- The `status_severity_counts` update for one ticket
(src/app/services.py lines 161-171). -/
def sbStep (m : List (String × List (String × Nat))) (t : ESTicket) :
    List (String × List (String × Nat)) :=
  updD m t.status [] (fun sc => updD sc (sevLabel t) 0 (fun n => n + 1))

namespace TicketService

/-- src/app/services.py `TicketService.get_stacked_bar_data` (lines
153-178): group the filtered tickets by status, count by severity label
inside each group, and emit the groups in insertion order. -/
def get_stacked_bar_data (store : List ESTicket) (f : FilterParams) :
    List StackedBarData :=
  let tickets := get_filtered_tickets store f
  let counts := tickets.foldl sbStep []
  counts.map (fun p => ⟨p.1, p.2⟩)

end TicketService

/-!
Team ranking (src/app/services.py `get_team_ticket_counts`).
-/

/-- Python `ticket.eng_team or "Unknown"`: `None` and the empty string
are falsy and replaced by `"Unknown"`. -/
def teamLabel (t : ESTicket) : String :=
  match t.eng_team with
  | none => "Unknown"
  | some s => if s = "" then "Unknown" else s

/-- src/app/models.py `TeamTicketCount`. -/
structure TeamTicketCount where
  team : String
  ticket_count : Nat
deriving DecidableEq, Repr

/-- The comparison used by
`sorted(team_counts.items(), key=lambda x: x[1], reverse=True)`:
when it holds, the left pair may stay before the right one. Python
`sorted` is stable, as is `List.insertionSort`, so the insertion sort
under this relation is the exact model of that call. -/
def countDesc (a b : String × Nat) : Prop := b.2 ≤ a.2

instance : DecidableRel countDesc :=
  fun a b => inferInstanceAs (Decidable (b.2 ≤ a.2))

instance : IsTotal (String × Nat) countDesc :=
  ⟨fun a b => Nat.le_total b.2 a.2⟩

instance : IsTrans (String × Nat) countDesc :=
  ⟨fun _ _ _ hab hbc => le_trans hbc hab⟩

/-- The `team_counts` dict built by `get_team_ticket_counts`
(src/app/services.py lines 186-190): per-label ticket counts in
first-encounter order. -/
def teamCountPairs (store : List ESTicket) (f : FilterParams) :
    List (String × Nat) :=
  (TicketService.get_filtered_tickets store f).foldl
    (fun m t => updD m (teamLabel t) 0 (fun n => n + 1)) []

namespace TicketService

/-- src/app/services.py `TicketService.get_team_ticket_counts` (lines
180-197): count the filtered tickets per team label, sort the pairs by
count descending (stable), and keep the first ten. -/
def get_team_ticket_counts (store : List ESTicket) (f : FilterParams) :
    List TeamTicketCount :=
  ((((teamCountPairs store f).insertionSort countDesc)).map
    (fun p => TeamTicketCount.mk p.1 p.2)).take 10

end TicketService

/-!
Flag store and export (src/app/services.py `FlagService` and
`ExportService`), over an explicit database state.
-/

/-- src/app/models.py `User`, restricted to the columns the flag path
reads. -/
structure User where
  id : Nat
  username : String
deriving DecidableEq, Repr

/-- src/app/models.py `UserTicketFlag`. -/
structure UserTicketFlag where
  id : Nat
  user_id : Nat
  ticket_id : Nat
  flagged_at : DateTime
  notes : Option String
deriving DecidableEq, Repr

/-- The database state: the three tables in storage order, plus the
autoincrement counter behind the flag primary key. -/
structure Database where
  tickets : List ESTicket
  users : List User
  flags : List UserTicketFlag
  next_flag_id : Nat
deriving DecidableEq, Repr

/-- The condition
`and_(UserTicketFlag.user_id == user_id, UserTicketFlag.ticket_id == ticket_id)`
used by the flag queries. -/
def flagMatchesPair (u t : Nat) (fl : UserTicketFlag) : Bool :=
  fl.user_id == u && fl.ticket_id == t

namespace FlagService

/-- src/app/services.py `FlagService.flag_ticket` (lines 233-252):
return the existing flag for the pair unchanged when there is one,
otherwise insert a new row stamped `now` and return it. -/
def flag_ticket (db : Database) (u t : Nat) (notes : Option String)
    (now : DateTime) : UserTicketFlag × Database :=
  match db.flags.find? (flagMatchesPair u t) with
  | some fl => (fl, db)
  | none =>
    let fl : UserTicketFlag := ⟨db.next_flag_id, u, t, now, notes⟩
    (fl, { db with flags := db.flags ++ [fl],
                   next_flag_id := db.next_flag_id + 1 })

/-- src/app/services.py `FlagService.unflag_ticket` (lines 254-268):
delete the first row for the pair and report `true`, or report `false`
when there is none. -/
def unflag_ticket (db : Database) (u t : Nat) : Bool × Database :=
  match db.flags.find? (flagMatchesPair u t) with
  | some _ => (true, { db with flags := db.flags.eraseP (flagMatchesPair u t) })
  | none => (false, db)

/-- src/app/services.py `FlagService.is_ticket_flagged` (lines
309-318). -/
def is_ticket_flagged (db : Database) (u t : Nat) : Bool :=
  (db.flags.find? (flagMatchesPair u t)).isSome

/-- src/app/services.py `FlagService.get_flagged_tickets` (lines
279-307): join tickets with this user's flags on the ticket id, then
apply the same five filter conditions to the ticket side. -/
def get_flagged_tickets (db : Database) (u : Nat) (f : FilterParams) :
    List (ESTicket × UserTicketFlag) :=
  let joined := db.tickets.flatMap (fun t =>
    (db.flags.filter (fun fl => fl.ticket_id == t.id && fl.user_id == u)).map
      (fun fl => (t, fl)))
  joined.filter (fun p => ticketMatches f p.1)

end FlagService

/-- Double every quote character, as Python `csv` escapes quotes. -/
def escQuotes (cs : List Char) : List Char :=
  cs.flatMap (fun c => if c = '"' then ['"', '"'] else [c])

/-- Quote a CSV field as Python `csv` does with `QUOTE_MINIMAL`:
wrap in double quotes, doubling inner quotes, only when the field
contains a delimiter, a quote, or a line break. -/
def csvField (s : String) : String :=
  if s.data.any (fun c => c = ',' || c = '"' || c = '\n' || c = '\r') then
    "\"" ++ String.mk (escQuotes s.data) ++ "\""
  else s

/-- Comma-separated join. -/
def joinComma : List String → String
  | [] => ""
  | [x] => x
  | x :: rest => x ++ "," ++ joinComma rest

/-- Concatenation of a list of strings. -/
def concatAll : List String → String
  | [] => ""
  | x :: rest => x ++ concatAll rest

/-- One CSV record: comma-joined quoted fields plus the `csv` module
default `\r\n` terminator. -/
def csvLine (fields : List String) : String :=
  joinComma (fields.map csvField) ++ "\r\n"

/-- src/app/models.py `TicketExportRow`. -/
structure TicketExportRow where
  key : String
  title : String
  team : Option String
  severity : Option String
  status : String
  created : String
  updated : String
  assignee : Option String
  time_to_resolve_hours : Option ℚ
  flagged_at : Option String
  flag_notes : Option String
deriving DecidableEq, Repr

/-- How `csv.DictWriter` renders an optional string: `None` becomes the
empty field. -/
def optField : Option String → String
  | none => ""
  | some s => s

/-- Natural-number rendering left-padded with zeros to `k` digits. -/
def padTo (k : Nat) (n : Nat) : String :=
  let s := toString n
  (List.replicate (k - s.length) '0').asString ++ s

/-- Rendering of a `Decimal` magnitude by `str`, modelled on the value:
scale by the smallest power of ten that clears the denominator and
print with that many decimal places. -/
def ratDecString (q : ℚ) : String :=
  let sign := if q < 0 then "-" else ""
  let aq := |q|
  match (List.range 29).find? (fun k => (aq * (10:ℚ) ^ k).den == 1) with
  | some k =>
    if k = 0 then sign ++ toString aq.num
    else
      let n := (aq * (10:ℚ) ^ k).num.toNat
      sign ++ toString (n / 10 ^ k) ++ "." ++ padTo k (n % 10 ^ k)
  | none => sign ++ toString aq.num ++ "/" ++ toString aq.den

/-- The declared field order of `TicketExportRow`, which
`model_fields.keys()` yields as the CSV header. -/
def headerFields : List String :=
  ["key", "title", "team", "severity", "status", "created", "updated",
   "assignee", "time_to_resolve_hours", "flagged_at", "flag_notes"]

/-- The field values `DictWriter.writerow` renders for one export
row, in declared order. -/
def rowFields (r : TicketExportRow) : List String :=
  [r.key, r.title, optField r.team, optField r.severity, r.status,
   r.created, r.updated, optField r.assignee,
   (match r.time_to_resolve_hours with
    | none => ""
    | some q => ratDecString q),
   optField r.flagged_at, optField r.flag_notes]

namespace ExportService

/-- src/app/services.py `ExportService.export_flagged_tickets_csv`
(lines 324-357): build one `TicketExportRow` per flagged pair, and only
when that list is non-empty write the header and the rows; an empty
list leaves the `StringIO` untouched. -/
def export_flagged_tickets_csv (db : Database) (u : Nat)
    (f : FilterParams) : String :=
  let export_data := (FlagService.get_flagged_tickets db u f).map
    (fun p => TicketExportRow.mk p.1.key p.1.summary p.1.eng_team
      p.1.severity p.1.status p.1.created.isoformat p.1.updated.isoformat
      p.1.assignee p.1.time_to_resolve_hours
      (some p.2.flagged_at.isoformat) p.2.notes)
  if export_data.isEmpty then ""
  else
    csvLine headerFields ++
      concatAll (export_data.map (fun r => csvLine (rowFields r)))

end ExportService

/-!
Lemmas about the time-series fold (C6, C10). Each filtered ticket
contributes up to three events keyed by the ISO date of its creation,
mitigation and resolution timestamps.
-/

/-- The date-bucket key of a ticket's creation event. -/
def crKey (t : ESTicket) : String := t.created.date.isoformat

/-- The date-bucket key of a ticket's mitigation event, when any. -/
def mitKey (t : ESTicket) : Option String :=
  t.mitigated_date.map (fun d => d.date.isoformat)

/-- The date-bucket key of a ticket's resolution event, when any. -/
def resKey (t : ESTicket) : Option String :=
  t.resolved_date.map (fun d => d.date.isoformat)

theorem lookD_updD_proj (m : List (String × β)) (k k2 : String) (d : β)
    (f : β → β) (g : β → Nat) (hf : ∀ c, g (f c) = g c) :
    g (lookD (updD m k d f) k2 d) = g (lookD m k2 d) := by
  by_cases h : k2 = k
  · subst h
    rw [lookD_updD_self, hf]
  · rw [lookD_updD_ne _ _ _ _ _ _ h]

theorem lookD_updD_proj_inc (m : List (String × β)) (k k2 : String)
    (d : β) (f : β → β) (g : β → Nat) (hf : ∀ c, g (f c) = g c + 1) :
    g (lookD (updD m k d f) k2 d)
      = g (lookD m k2 d) + (if k = k2 then 1 else 0) := by
  by_cases h : k2 = k
  · subst h
    rw [lookD_updD_self, hf]
    simp
  · rw [lookD_updD_ne _ _ _ _ _ _ h, if_neg (fun he => h he.symm)]
    omega

theorem lookD_incC_created (m : List (String × DayCounts)) (k k2 : String) :
    (lookD (updD m k DayCounts.zero
        (fun c => { c with created := c.created + 1 })) k2 DayCounts.zero).created
      = (lookD m k2 DayCounts.zero).created + (if k = k2 then 1 else 0) :=
  lookD_updD_proj_inc m k k2 DayCounts.zero
    (fun c => { c with created := c.created + 1 })
    (fun c => c.created) (fun _ => rfl)

theorem lookD_incM_created (m : List (String × DayCounts)) (k k2 : String) :
    (lookD (updD m k DayCounts.zero
        (fun c => { c with mitigated := c.mitigated + 1 })) k2 DayCounts.zero).created
      = (lookD m k2 DayCounts.zero).created :=
  lookD_updD_proj m k k2 DayCounts.zero
    (fun c => { c with mitigated := c.mitigated + 1 })
    (fun c => c.created) (fun _ => rfl)

theorem lookD_incR_created (m : List (String × DayCounts)) (k k2 : String) :
    (lookD (updD m k DayCounts.zero
        (fun c => { c with resolved := c.resolved + 1 })) k2 DayCounts.zero).created
      = (lookD m k2 DayCounts.zero).created :=
  lookD_updD_proj m k k2 DayCounts.zero
    (fun c => { c with resolved := c.resolved + 1 })
    (fun c => c.created) (fun _ => rfl)

theorem lookD_incC_mitigated (m : List (String × DayCounts)) (k k2 : String) :
    (lookD (updD m k DayCounts.zero
        (fun c => { c with created := c.created + 1 })) k2 DayCounts.zero).mitigated
      = (lookD m k2 DayCounts.zero).mitigated :=
  lookD_updD_proj m k k2 DayCounts.zero
    (fun c => { c with created := c.created + 1 })
    (fun c => c.mitigated) (fun _ => rfl)

theorem lookD_incM_mitigated (m : List (String × DayCounts)) (k k2 : String) :
    (lookD (updD m k DayCounts.zero
        (fun c => { c with mitigated := c.mitigated + 1 })) k2 DayCounts.zero).mitigated
      = (lookD m k2 DayCounts.zero).mitigated + (if k = k2 then 1 else 0) :=
  lookD_updD_proj_inc m k k2 DayCounts.zero
    (fun c => { c with mitigated := c.mitigated + 1 })
    (fun c => c.mitigated) (fun _ => rfl)

theorem lookD_incR_mitigated (m : List (String × DayCounts)) (k k2 : String) :
    (lookD (updD m k DayCounts.zero
        (fun c => { c with resolved := c.resolved + 1 })) k2 DayCounts.zero).mitigated
      = (lookD m k2 DayCounts.zero).mitigated :=
  lookD_updD_proj m k k2 DayCounts.zero
    (fun c => { c with resolved := c.resolved + 1 })
    (fun c => c.mitigated) (fun _ => rfl)

theorem lookD_incC_resolved (m : List (String × DayCounts)) (k k2 : String) :
    (lookD (updD m k DayCounts.zero
        (fun c => { c with created := c.created + 1 })) k2 DayCounts.zero).resolved
      = (lookD m k2 DayCounts.zero).resolved :=
  lookD_updD_proj m k k2 DayCounts.zero
    (fun c => { c with created := c.created + 1 })
    (fun c => c.resolved) (fun _ => rfl)

theorem lookD_incM_resolved (m : List (String × DayCounts)) (k k2 : String) :
    (lookD (updD m k DayCounts.zero
        (fun c => { c with mitigated := c.mitigated + 1 })) k2 DayCounts.zero).resolved
      = (lookD m k2 DayCounts.zero).resolved :=
  lookD_updD_proj m k k2 DayCounts.zero
    (fun c => { c with mitigated := c.mitigated + 1 })
    (fun c => c.resolved) (fun _ => rfl)

theorem lookD_incR_resolved (m : List (String × DayCounts)) (k k2 : String) :
    (lookD (updD m k DayCounts.zero
        (fun c => { c with resolved := c.resolved + 1 })) k2 DayCounts.zero).resolved
      = (lookD m k2 DayCounts.zero).resolved + (if k = k2 then 1 else 0) :=
  lookD_updD_proj_inc m k k2 DayCounts.zero
    (fun c => { c with resolved := c.resolved + 1 })
    (fun c => c.resolved) (fun _ => rfl)

theorem tsStep_created (m : List (String × DayCounts)) (t : ESTicket)
    (k : String) :
    (lookD (tsStep m t) k DayCounts.zero).created
      = (lookD m k DayCounts.zero).created
        + (if crKey t == k then 1 else 0) := by
  rw [show (if (crKey t == k : Bool) then 1 else 0)
      = (if t.created.date.isoformat = k then 1 else 0) by simp [crKey]]
  rcases hm : t.mitigated_date with _ | dm <;>
    rcases hr : t.resolved_date with _ | dr <;>
    simp only [tsStep, hm, hr]
  · rw [lookD_incC_created]
  · rw [lookD_incR_created, lookD_incC_created]
  · rw [lookD_incM_created, lookD_incC_created]
  · rw [lookD_incR_created, lookD_incM_created, lookD_incC_created]

theorem tsStep_mitigated (m : List (String × DayCounts)) (t : ESTicket)
    (k : String) :
    (lookD (tsStep m t) k DayCounts.zero).mitigated
      = (lookD m k DayCounts.zero).mitigated
        + (if mitKey t == some k then 1 else 0) := by
  rcases hm : t.mitigated_date with _ | dm <;>
    rcases hr : t.resolved_date with _ | dr <;>
    simp only [tsStep, hm, hr]
  · rw [show (if (mitKey t == some k : Bool) then 1 else 0) = 0
        by simp [mitKey, hm]]
    rw [lookD_incC_mitigated]
    omega
  · rw [show (if (mitKey t == some k : Bool) then 1 else 0) = 0
        by simp [mitKey, hm]]
    rw [lookD_incR_mitigated, lookD_incC_mitigated]
    omega
  · rw [show (if (mitKey t == some k : Bool) then 1 else 0)
        = (if dm.date.isoformat = k then 1 else 0) by simp [mitKey, hm]]
    rw [lookD_incM_mitigated, lookD_incC_mitigated]
  · rw [show (if (mitKey t == some k : Bool) then 1 else 0)
        = (if dm.date.isoformat = k then 1 else 0) by simp [mitKey, hm]]
    rw [lookD_incR_mitigated, lookD_incM_mitigated, lookD_incC_mitigated]

theorem tsStep_resolved (m : List (String × DayCounts)) (t : ESTicket)
    (k : String) :
    (lookD (tsStep m t) k DayCounts.zero).resolved
      = (lookD m k DayCounts.zero).resolved
        + (if resKey t == some k then 1 else 0) := by
  rcases hm : t.mitigated_date with _ | dm <;>
    rcases hr : t.resolved_date with _ | dr <;>
    simp only [tsStep, hm, hr]
  · rw [show (if (resKey t == some k : Bool) then 1 else 0) = 0
        by simp [resKey, hr]]
    rw [lookD_incC_resolved]
    omega
  · rw [show (if (resKey t == some k : Bool) then 1 else 0)
        = (if dr.date.isoformat = k then 1 else 0) by simp [resKey, hr]]
    rw [lookD_incR_resolved, lookD_incC_resolved]
  · rw [show (if (resKey t == some k : Bool) then 1 else 0) = 0
        by simp [resKey, hr]]
    rw [lookD_incM_resolved, lookD_incC_resolved]
    omega
  · rw [show (if (resKey t == some k : Bool) then 1 else 0)
        = (if dr.date.isoformat = k then 1 else 0) by simp [resKey, hr]]
    rw [lookD_incR_resolved, lookD_incM_resolved, lookD_incC_resolved]

theorem tsFold_created (ts : List ESTicket)
    (m : List (String × DayCounts)) (k : String) :
    (lookD (ts.foldl tsStep m) k DayCounts.zero).created
      = (lookD m k DayCounts.zero).created
        + ts.countP (fun t => crKey t == k) := by
  induction ts generalizing m with
  | nil => simp
  | cons t ts ih =>
    rw [List.foldl_cons, ih, tsStep_created]
    simp only [List.countP_cons]
    omega

theorem tsFold_mitigated (ts : List ESTicket)
    (m : List (String × DayCounts)) (k : String) :
    (lookD (ts.foldl tsStep m) k DayCounts.zero).mitigated
      = (lookD m k DayCounts.zero).mitigated
        + ts.countP (fun t => mitKey t == some k) := by
  induction ts generalizing m with
  | nil => simp
  | cons t ts ih =>
    rw [List.foldl_cons, ih, tsStep_mitigated]
    simp only [List.countP_cons]
    omega

theorem tsFold_resolved (ts : List ESTicket)
    (m : List (String × DayCounts)) (k : String) :
    (lookD (ts.foldl tsStep m) k DayCounts.zero).resolved
      = (lookD m k DayCounts.zero).resolved
        + ts.countP (fun t => resKey t == some k) := by
  induction ts generalizing m with
  | nil => simp
  | cons t ts ih =>
    rw [List.foldl_cons, ih, tsStep_resolved]
    simp only [List.countP_cons]
    omega

theorem mem_keys_tsStep (m : List (String × DayCounts)) (t : ESTicket)
    (a : String) :
    a ∈ keys (tsStep m t)
      ↔ a ∈ keys m ∨ crKey t = a ∨ mitKey t = some a ∨ resKey t = some a := by
  rcases hm : t.mitigated_date with _ | dm <;>
    rcases hr : t.resolved_date with _ | dr <;>
    simp [tsStep, hm, hr, crKey, mitKey, resKey, mem_keys_updD,
      eq_comm] <;> tauto

theorem nodup_keys_tsStep (m : List (String × DayCounts)) (t : ESTicket)
    (h : (keys m).Nodup) : (keys (tsStep m t)).Nodup := by
  rcases hm : t.mitigated_date with _ | dm <;>
    rcases hr : t.resolved_date with _ | dr <;>
    simp only [tsStep, hm, hr]
  · exact nodup_keys_updD _ _ _ _ h
  · exact nodup_keys_updD _ _ _ _ (nodup_keys_updD _ _ _ _ h)
  · exact nodup_keys_updD _ _ _ _ (nodup_keys_updD _ _ _ _ h)
  · exact nodup_keys_updD _ _ _ _
      (nodup_keys_updD _ _ _ _ (nodup_keys_updD _ _ _ _ h))

theorem mem_keys_tsFold (ts : List ESTicket)
    (m : List (String × DayCounts)) (a : String) :
    a ∈ keys (ts.foldl tsStep m)
      ↔ a ∈ keys m
        ∨ ∃ t ∈ ts, crKey t = a ∨ mitKey t = some a ∨ resKey t = some a := by
  induction ts generalizing m with
  | nil => simp
  | cons t ts ih =>
    rw [List.foldl_cons, ih]
    constructor
    · rintro (h | ⟨t2, ht2, h2⟩)
      · rcases (mem_keys_tsStep m t a).mp h with h2 | h2 | h2 | h2
        · exact Or.inl h2
        · exact Or.inr ⟨t, List.mem_cons_self t ts, Or.inl h2⟩
        · exact Or.inr ⟨t, List.mem_cons_self t ts, Or.inr (Or.inl h2)⟩
        · exact Or.inr ⟨t, List.mem_cons_self t ts, Or.inr (Or.inr h2)⟩
      · exact Or.inr ⟨t2, List.mem_cons_of_mem t ht2, h2⟩
    · rintro (h | ⟨t2, ht2, h2⟩)
      · exact Or.inl ((mem_keys_tsStep m t a).mpr (Or.inl h))
      · rcases List.mem_cons.mp ht2 with rfl | h3
        · exact Or.inl ((mem_keys_tsStep m t2 a).mpr (Or.inr h2))
        · exact Or.inr ⟨t2, h3, h2⟩

theorem nodup_keys_tsFold (ts : List ESTicket)
    (m : List (String × DayCounts)) (h : (keys m).Nodup) :
    (keys (ts.foldl tsStep m)).Nodup := by
  induction ts generalizing m with
  | nil => exact h
  | cons t ts ih =>
    rw [List.foldl_cons]
    exact ih _ (nodup_keys_tsStep _ _ h)

/-- Sums distribute over pointwise addition of mapped functions. -/
theorem sum_map_add (l : List γ) (a b : γ → Nat) :
    (l.map (fun k => a k + b k)).sum = (l.map a).sum + (l.map b).sum := by
  induction l with
  | nil => simp
  | cons x l ih =>
    simp only [List.map_cons, List.sum_cons, ih]
    omega

theorem sum_map_ite_zero (s : String) (ks : List String) (h : s ∉ ks) :
    (ks.map (fun k => if s = k then 1 else 0)).sum = 0 := by
  induction ks with
  | nil => simp
  | cons k ks ih =>
    rw [List.mem_cons] at h
    push_neg at h
    simp only [List.map_cons, List.sum_cons, if_neg h.1, ih h.2]

/-- Over a duplicate-free key list containing `s`, the indicator of `s`
sums to one. -/
theorem sum_map_ite_one (s : String) (ks : List String) (hnd : ks.Nodup)
    (hs : s ∈ ks) :
    (ks.map (fun k => if s = k then 1 else 0)).sum = 1 := by
  induction ks with
  | nil => simp at hs
  | cons k ks ih =>
    rw [List.nodup_cons] at hnd
    rcases List.mem_cons.mp hs with rfl | h2
    · simp [sum_map_ite_zero s ks hnd.1]
    · have hne : s ≠ k := by
        rintro rfl
        exact hnd.1 h2
      simp only [List.map_cons, List.sum_cons, if_neg hne, ih hnd.2 h2]

/-- Fibre sums: summing, over a duplicate-free key list covering every
key that occurs, the per-key event counts of a ticket list gives the
total number of events. -/
theorem countP_key_sum (ts : List α) (key : α → Option String)
    (ks : List String) (hnd : ks.Nodup)
    (hcov : ∀ t ∈ ts, ∀ s, key t = some s → s ∈ ks) :
    (ks.map (fun k => ts.countP (fun t => key t == some k))).sum
      = ts.countP (fun t => (key t).isSome) := by
  induction ts with
  | nil => simp
  | cons t ts ih =>
    have hcov2 : ∀ t2 ∈ ts, ∀ s, key t2 = some s → s ∈ ks :=
      fun t2 h2 => hcov t2 (List.mem_cons_of_mem _ h2)
    have hstep : (ks.map (fun k =>
        List.countP (fun t2 => key t2 == some k) (t :: ts))).sum
        = (ks.map (fun k =>
            List.countP (fun t2 => key t2 == some k) ts)).sum
          + (ks.map (fun k => if key t == some k then 1 else 0)).sum := by
      rw [← sum_map_add]
      congr 1
      apply List.map_congr_left
      intro k _
      rw [List.countP_cons]
    rw [hstep, ih hcov2]
    rcases hk : key t with _ | s
    · have hz : (ks.map (fun k =>
          if ((none : Option String) == some k : Bool) then 1 else 0)).sum
          = 0 := by
        simp
      rw [hz, List.countP_cons]
      simp [hk]
    · have h1 : (ks.map (fun k =>
          if ((some s : Option String) == some k : Bool) then 1 else 0))
          = (ks.map (fun k => if s = k then 1 else 0)) := by
        apply List.map_congr_left
        intro k _
        simp
      rw [h1, sum_map_ite_one s ks hnd
        (hcov t (List.mem_cons_self t ts) s hk), List.countP_cons]
      simp [hk]

/-!
Concrete sample data for witnesses and counterexamples.
-/

/-- A midnight `datetime` on the given calendar day. -/
def mkDT (y m d : Nat) : DateTime := ⟨⟨y, m, d⟩, ⟨0, 0, 0, 0⟩⟩

/-- Sample ticket: created 2024-01-01, resolved 2024-01-02 (24h),
team Platform, severity High. -/
def tick1 : ESTicket where
  id := 1
  key := "ES-1001"
  summary := "Database performance"
  status := "Open"
  created := mkDT 2024 1 1
  updated := mkDT 2024 1 2
  assignee := some "u1"
  eng_team := some "Platform"
  severity := some "High"
  mitigated_date := none
  resolved_date := some (mkDT 2024 1 2)
  time_to_resolve_hours := some 24

/-- Sample ticket: created 2024-01-01, team Data, severity Low,
unresolved. -/
def tick2 : ESTicket where
  id := 2
  key := "ES-1002"
  summary := "API timeout"
  status := "In Progress"
  created := mkDT 2024 1 1
  updated := mkDT 2024 1 1
  assignee := none
  eng_team := some "Data"
  severity := some "Low"
  mitigated_date := none
  resolved_date := none
  time_to_resolve_hours := none

/-- Sample ticket: created 2024-01-03, team Platform, severity High,
mitigated 2024-01-03. -/
def tick3 : ESTicket where
  id := 3
  key := "ES-1003"
  summary := "Memory leak"
  status := "Open"
  created := mkDT 2024 1 3
  updated := mkDT 2024 1 3
  assignee := none
  eng_team := some "Platform"
  severity := some "High"
  mitigated_date := some (mkDT 2024 1 3)
  resolved_date := none
  time_to_resolve_hours := none

/-- The three-ticket sample store. -/
def sampleStore : List ESTicket := [tick1, tick2, tick3]

/-- A database with one user and one ticket but no flags. -/
def noFlagDb : Database := ⟨[tick1], [⟨1, "alice"⟩], [], 1⟩

/--
C1. Claim: with no flagged tickets matching the filter,
`export_flagged_tickets_csv` returns exactly one line, the header
`key,title,team,severity,status,created,updated,assignee,time_to_resolve_hours,flagged_at,flag_notes`.
The code only writes the header inside `if export_data:`, so with zero
flagged tickets it returns the empty string — zero lines, not one:
evaluated here at a store with a user and a ticket but no flag.
-/
theorem export_csv_empty_is_empty_string :
    ExportService.export_flagged_tickets_csv noFlagDb 1 FilterParams.empty
      = ""
    ∧ csvLine headerFields =
      "key,title,team,severity,status,created,updated,assignee,time_to_resolve_hours,flagged_at,flag_notes\r\n" := by
  constructor
  · rfl
  · decide

/-- The two condition builders in `get_filtered_tickets` and
`get_kpi_data` are the same predicate, line for line. -/
theorem kpiRowMatches_eq_ticketMatches : kpiRowMatches = ticketMatches :=
  rfl

/--
C5. Claim: `tickets_mitigated` counts the filtered tickets whose
mitigated timestamp is set (regardless of where the mitigation date
falls), `open_tickets` counts the filtered tickets with no resolved
timestamp, and `tickets_created` is the size of the filtered set.
-/
theorem kpi_counts_correct (store : List ESTicket) (f : FilterParams) :
    (TicketService.get_kpi_data store f).tickets_created
      = (TicketService.get_filtered_tickets store f).length
    ∧ (TicketService.get_kpi_data store f).tickets_mitigated
      = ((TicketService.get_filtered_tickets store f).filter
          (fun t => t.mitigated_date.isSome)).length
    ∧ (TicketService.get_kpi_data store f).open_tickets
      = ((TicketService.get_filtered_tickets store f).filter
          (fun t => t.resolved_date.isNone)).length := by
  refine ⟨?_, ?_, ?_⟩ <;>
    simp [TicketService.get_kpi_data, TicketService.get_filtered_tickets,
      kpiRowMatches_eq_ticketMatches]

/-- A midnight lower bound on a `datetime` is exactly a calendar-date
lower bound on its date. -/
theorem dtLe_min_iff (d : Date) (x : DateTime) :
    DateTime.le ⟨d, Time.min⟩ x ↔ Date.le d x.date := by
  obtain ⟨⟨y1, m1, d1⟩, ⟨hh, mm, ss, us⟩⟩ := x
  obtain ⟨y2, m2, d2⟩ := d
  simp only [DateTime.le, Date.lt, Date.le, Time.le, Time.min,
    Date.mk.injEq]
  omega

/-- An end-of-day upper bound on a valid `datetime` is exactly a
calendar-date upper bound on its date: the end date covers its whole
day. -/
theorem dtLe_max_iff (x : DateTime) (hv : Time.valid x.time) (d : Date) :
    DateTime.le x ⟨d, Time.max⟩ ↔ Date.le x.date d := by
  obtain ⟨⟨y1, m1, d1⟩, ⟨hh, mm, ss, us⟩⟩ := x
  obtain ⟨y2, m2, d2⟩ := d
  simp only [Time.valid] at hv
  simp only [DateTime.le, Date.lt, Date.le, Time.le, Time.max,
    Date.mk.injEq]
  omega

/-- A nullable column is `in_` a value list exactly when it holds some
value of the list. -/
theorem optMem_iff (v : Option String) (l : List String) :
    optMem v l = true ↔ ∃ s2, v = some s2 ∧ s2 ∈ l := by
  cases v <;> simp [optMem, List.contains]

/--
C3. Claim: a ticket is in the filtered set iff every specified
sub-condition holds — `created` at or after the start date, `created`
within the end date's whole calendar day, and membership of team,
severity and status in any non-empty selected set — with absent or
empty fields imposing no restriction.
-/
theorem filtered_mem_iff (store : List ESTicket) (s : FilterState)
    (t : ESTicket) (hv : Time.valid t.created.time) :
    t ∈ TicketService.get_filtered_tickets store s.to_filter_params
      ↔ t ∈ store
        ∧ (∀ d, s.date_start = some d → Date.le d t.created.date)
        ∧ (∀ d, s.date_end = some d → Date.le t.created.date d)
        ∧ (s.teams ≠ [] → ∃ nm, t.eng_team = some nm ∧ nm ∈ s.teams)
        ∧ (s.severities ≠ [] →
            ∃ sv, t.severity = some sv ∧ sv ∈ s.severities)
        ∧ (s.statuses ≠ [] → t.status ∈ s.statuses) := by
  rw [TicketService.get_filtered_tickets, List.mem_filter]
  refine and_congr_right fun _ => ?_
  obtain ⟨ods, ode, tms, svs, sts⟩ := s
  rcases ods with _ | ds <;> rcases ode with _ | de <;>
    rcases tms with _ | ⟨tm, tms⟩ <;> rcases svs with _ | ⟨sv, svs⟩ <;>
    rcases sts with _ | ⟨st, sts⟩ <;>
    simp [ticketMatches, FilterState.to_filter_params, listTruthy,
      optMem_iff, dtLe_min_iff, dtLe_max_iff t.created hv,
      List.contains, and_assoc]

/-- Witness for C3: with a 2024-01-01 .. 2024-01-02 window and team set
containing Platform, `tick1` (created 2024-01-01, team Platform) is in
the filtered sample store. -/
theorem filtered_mem_iff_witness :
    tick1 ∈ TicketService.get_filtered_tickets sampleStore
      (FilterState.mk (some ⟨2024, 1, 1⟩) (some ⟨2024, 1, 2⟩)
        ["Platform"] [] []).to_filter_params :=
  (filtered_mem_iff sampleStore
    (FilterState.mk (some ⟨2024, 1, 1⟩) (some ⟨2024, 1, 2⟩)
      ["Platform"] [] []) tick1 (by decide)).mpr
    (by
      refine ⟨by decide, ?_, ?_, ?_, ?_, ?_⟩
      · intro d hd
        cases hd
        decide
      · intro d hd
        cases hd
        decide
      · intro _
        exact ⟨"Platform", rfl, by decide⟩
      · intro h
        exact absurd rfl h
      · intro h
        exact absurd rfl h)

/-- Unfolding of the average branch of `get_kpi_data`: the definitions
of the two condition builders coincide, so the resolved set is the
filtered set restricted to rows with a resolve duration. -/
theorem kpi_avg_eq (store : List ESTicket) (f : FilterParams) :
    (TicketService.get_kpi_data store f).avg_time_to_resolve_hours
      = if ((store.filter (ticketMatches f)).filter
            (fun t => t.time_to_resolve_hours.isSome)).isEmpty
        then none
        else some (round2
          ((((store.filter (ticketMatches f)).filter
              (fun t => t.time_to_resolve_hours.isSome)).filterMap
                (fun t => t.time_to_resolve_hours)).sum
            / (((store.filter (ticketMatches f)).filter
                (fun t => t.time_to_resolve_hours.isSome)).length : ℚ))) :=
  rfl

/--
C4. Claim: `avg_time_to_resolve_hours` is absent (`None`, not zero)
exactly when no filtered ticket carries a resolve duration, and
otherwise equals the arithmetic mean of the durations present, rounded
to two decimal places.
-/
theorem kpi_avg_correct (store : List ESTicket) (f : FilterParams) :
    ((TicketService.get_kpi_data store f).avg_time_to_resolve_hours = none
      ↔ ∀ t ∈ TicketService.get_filtered_tickets store f,
          t.time_to_resolve_hours = none)
    ∧ (((TicketService.get_filtered_tickets store f).filter
          (fun t => t.time_to_resolve_hours.isSome)) ≠ [] →
        (TicketService.get_kpi_data store f).avg_time_to_resolve_hours
          = some (round2
              ((((TicketService.get_filtered_tickets store f).filter
                  (fun t => t.time_to_resolve_hours.isSome)).filterMap
                    (fun t => t.time_to_resolve_hours)).sum
                / (((TicketService.get_filtered_tickets store f).filter
                    (fun t => t.time_to_resolve_hours.isSome)).length : ℚ)))) := by
  rw [TicketService.get_filtered_tickets]
  constructor
  · rw [kpi_avg_eq]
    by_cases he : ((store.filter (ticketMatches f)).filter
        (fun t => t.time_to_resolve_hours.isSome)) = []
    · rw [if_pos (by simp [he])]
      simp only [true_iff]
      intro t ht
      have := List.filter_eq_nil_iff.mp he t ht
      simpa [Option.not_isSome_iff_eq_none] using this
    · rw [if_neg (by simpa using he)]
      constructor
      · intro h
        exact absurd h (by simp)
      · intro hall
        exact absurd (List.filter_eq_nil_iff.mpr
          (fun t ht => by simp [hall t ht])) he
  · intro hne
    rw [kpi_avg_eq, if_neg (by simpa using hne)]

/-- Witness for C4 at the three-ticket sample store with no filter:
only `tick1` has a duration (24h), so the average is 24. -/
theorem kpi_avg_correct_witness :
    (TicketService.get_kpi_data sampleStore FilterParams.empty).avg_time_to_resolve_hours
      = some 24 := by
  have h2 : (TicketService.get_filtered_tickets sampleStore
      FilterParams.empty).filter (fun t => t.time_to_resolve_hours.isSome)
      = [tick1] := rfl
  have h := (kpi_avg_correct sampleStore FilterParams.empty).2
    (by rw [h2]; simp)
  rw [h, h2]
  have h3 : (([tick1].filterMap (fun t => t.time_to_resolve_hours)).sum
      / (([tick1].length : Nat) : ℚ)) = 24 := by
    norm_num [tick1, List.filterMap_cons]
  rw [h3]
  norm_num [round2, roundHalfEven]

/--
C8. Claim: flagging a pair that already has a flag is idempotent: the
duplicate call returns the existing flag unchanged (its note is not
updated), changes nothing, and never duplicates the (user, ticket)
pair. Stated as: a second `flag_ticket` call with any note and
timestamp returns exactly the first call's flag and state, and after a
call the store holds `max(previous count, 1)` flags for the pair.
-/
theorem flag_ticket_idempotent (db : Database) (u t : Nat)
    (n n2 : Option String) (now now2 : DateTime) :
    FlagService.flag_ticket (FlagService.flag_ticket db u t n now).2
        u t n2 now2
      = FlagService.flag_ticket db u t n now
    ∧ ((FlagService.flag_ticket db u t n now).2).flags.countP
        (flagMatchesPair u t)
      = max (db.flags.countP (flagMatchesPair u t)) 1 := by
  rcases h : db.flags.find? (flagMatchesPair u t) with _ | fl
  · have hcnt : db.flags.countP (flagMatchesPair u t) = 0 :=
      List.countP_eq_zero.mpr (List.find?_eq_none.mp h)
    have hp : flagMatchesPair u t ⟨db.next_flag_id, u, t, now, n⟩ = true := by
      simp [flagMatchesPair]
    constructor
    · simp only [FlagService.flag_ticket, h]
      rw [List.find?_append, h]
      simp [List.find?, hp]
    · simp only [FlagService.flag_ticket, h]
      simp [List.countP_append, hcnt, List.countP_cons, hp]
  · have hcnt : 0 < db.flags.countP (flagMatchesPair u t) :=
      List.countP_pos_iff.mpr
        ⟨fl, List.mem_of_find?_eq_some h, List.find?_some h⟩
    constructor
    · simp only [FlagService.flag_ticket, h]
    · simp only [FlagService.flag_ticket, h]
      omega

/--
C9. Claim: `flag_ticket` does no existence check on its ids: even when
no user row and no ticket row carry the given ids, it still returns a
flag for the pair which is recorded in the store, while `unflag_ticket`
reports `false` for a missing flag.
-/
theorem flag_ticket_no_existence_check (db : Database) (u t : Nat)
    (n : Option String) (now : DateTime)
    (hu : ∀ usr ∈ db.users, usr.id ≠ u)
    (ht : ∀ tk ∈ db.tickets, tk.id ≠ t) :
    (FlagService.flag_ticket db u t n now).1.user_id = u
    ∧ (FlagService.flag_ticket db u t n now).1.ticket_id = t
    ∧ (FlagService.flag_ticket db u t n now).1
        ∈ (FlagService.flag_ticket db u t n now).2.flags
    ∧ (db.flags.find? (flagMatchesPair u t) = none →
        FlagService.unflag_ticket db u t = (false, db)) := by
  rcases h : db.flags.find? (flagMatchesPair u t) with _ | fl
  · refine ⟨?_, ?_, ?_, ?_⟩ <;>
      simp [FlagService.flag_ticket, FlagService.unflag_ticket, h]
  · have hfl := List.find?_some h
    simp only [flagMatchesPair, Bool.and_eq_true, beq_iff_eq] at hfl
    refine ⟨?_, ?_, ?_, ?_⟩ <;>
      simp [FlagService.flag_ticket, FlagService.unflag_ticket, h,
        hfl.1, hfl.2, List.mem_of_find?_eq_some h]

/-- Witness for C9 at a store whose only user has id 1 and whose only
ticket has id 1, flagging the absent pair (7, 9). -/
theorem flag_ticket_no_existence_check_witness :
    (FlagService.flag_ticket noFlagDb 7 9 none (mkDT 2024 2 1)).1
      ∈ (FlagService.flag_ticket noFlagDb 7 9 none (mkDT 2024 2 1)).2.flags :=
  (flag_ticket_no_existence_check noFlagDb 7 9 none (mkDT 2024 2 1)
    (by decide) (by decide)).2.2.1

/-!
Team ranking (C2).
-/

/-- Folding `fun v _ => v + 1` counts the elements. -/
theorem foldl_add_one (l : List α) (n : Nat) :
    l.foldl (fun v _ => v + 1) n = n + l.length := by
  induction l generalizing n with
  | nil => simp
  | cons a l ih =>
    rw [List.foldl_cons, ih, List.length_cons]
    omega

/-- The `team_counts` dict maps every label to the number of filtered
tickets carrying it. -/
theorem count_lookD_teamPairs (store : List ESTicket) (f : FilterParams)
    (k : String) :
    lookD (teamCountPairs store f) k 0
      = (TicketService.get_filtered_tickets store f).countP
          (fun t => teamLabel t == k) := by
  rw [teamCountPairs, lookD_foldl_updD, List.countP_eq_length_filter]
  have := foldl_add_one ((TicketService.get_filtered_tickets store f).filter
    (fun t => teamLabel t == k)) 0
  simpa [lookD] using this

theorem nodup_keys_teamCountPairs (store : List ESTicket)
    (f : FilterParams) : (keys (teamCountPairs store f)).Nodup := by
  rw [teamCountPairs]
  exact nodup_keys_foldl_updD _ _ _ _ _ (by simp [keys])

theorem mem_keys_teamCountPairs (store : List ESTicket) (f : FilterParams)
    (a : String) :
    a ∈ keys (teamCountPairs store f)
      ↔ ∃ t ∈ TicketService.get_filtered_tickets store f, teamLabel t = a := by
  rw [teamCountPairs, mem_keys_foldl_updD]
  simp [keys]

/-- Every pair of `team_counts` carries the correct count. -/
theorem mem_teamCountPairs_count (store : List ESTicket) (f : FilterParams)
    (p : String × Nat) (hp : p ∈ teamCountPairs store f) :
    p.2 = (TicketService.get_filtered_tickets store f).countP
        (fun t => teamLabel t == p.1) := by
  have hv := lookD_eq_of_mem_nodup (teamCountPairs store f) p.1 p.2 0
    (nodup_keys_teamCountPairs store f) (by simpa using hp)
  rw [← hv, count_lookD_teamPairs]

/-- The number of team groups is the number of distinct labels. -/
theorem length_teamCountPairs (store : List ESTicket) (f : FilterParams) :
    (teamCountPairs store f).length
      = ((TicketService.get_filtered_tickets store f).map teamLabel).dedup.length := by
  have h1 : (keys (teamCountPairs store f)).toFinset
      = (((TicketService.get_filtered_tickets store f).map teamLabel).dedup).toFinset := by
    ext a
    simp [mem_keys_teamCountPairs, List.mem_dedup]
  have h2 := List.toFinset_card_of_nodup (nodup_keys_teamCountPairs store f)
  have h3 := List.toFinset_card_of_nodup (List.nodup_dedup
    ((TicketService.get_filtered_tickets store f).map teamLabel))
  have hk : (keys (teamCountPairs store f)).length
      = (teamCountPairs store f).length := by simp [keys]
  rw [h1] at h2
  omega

/-- The ordering the claim asserts for the ranking: count strictly
descending, ties broken by team name ascending. -/
def claimTeamOrder (a b : TeamTicketCount) : Prop :=
  b.ticket_count < a.ticket_count ∨
    (a.ticket_count = b.ticket_count ∧ a.team ≤ b.team)

instance : DecidableRel claimTeamOrder := fun a b => by
  unfold claimTeamOrder; infer_instance

/-- The claim's team grouping, read off its words: only a null team is
bucketed as Unknown. -/
def specTeamGroups (ts : List ESTicket) : List String :=
  (ts.map (fun t => t.eng_team.getD "Unknown")).dedup

/-- A minimal ticket for the team-ranking counterexample. -/
def teamTick (i : Nat) (tm : Option String) : ESTicket where
  id := i
  key := "ES"
  summary := "s"
  status := "Open"
  created := mkDT 2024 1 1
  updated := mkDT 2024 1 1
  assignee := none
  eng_team := tm
  severity := some "High"
  mitigated_date := none
  resolved_date := none
  time_to_resolve_hours := none

/-- Counterexample store: an empty-string team and a null team (merged
into one Unknown bucket by the code), then teams b and a in that
order. -/
def cexTeamStore : List ESTicket :=
  [teamTick 1 (some ""), teamTick 2 none, teamTick 3 (some "b"),
   teamTick 4 (some "a")]

/--
C2 counterexample. On `cexTeamStore` the code returns
`[(Unknown, 2), (b, 1), (a, 1)]`: its length is 3, not
`min(10, 4)` as the claim's group count (which buckets only null teams
as Unknown) predicts, and the tie between b and a stays in
first-encounter order rather than team-name order.
-/
theorem team_counts_claim_counterexample :
    ¬((TicketService.get_team_ticket_counts cexTeamStore
          FilterParams.empty).length
        = min 10 (specTeamGroups cexTeamStore).length)
    ∧ ¬List.Sorted claimTeamOrder
        (TicketService.get_team_ticket_counts cexTeamStore
          FilterParams.empty) := by
  have hres : TicketService.get_team_ticket_counts cexTeamStore
      FilterParams.empty
      = [⟨"Unknown", 2⟩, ⟨"b", 1⟩, ⟨"a", 1⟩] := rfl
  constructor
  · rw [hres]
    decide
  · rw [hres]
    intro hs
    have hrel := List.rel_of_sorted_cons (List.Sorted.of_cons hs)
      ⟨"a", 1⟩ (by simp)
    rcases hrel with h | ⟨heq, hle⟩
    · simp at h
    · rw [String.le_iff_toList_le] at hle
      revert hle
      decide

/--
C2 amended. The ranking has length `min(10, number of distinct team
labels, where null or empty teams are bucketed as Unknown)`, is sorted
descending by count, carries the correct count and no duplicate label
per entry, and equal-count groups stay in first-encounter order (the
sort is stable); ties are not reordered by team name.
-/
theorem team_counts_amended (store : List ESTicket) (f : FilterParams) :
    (TicketService.get_team_ticket_counts store f).length
      = min 10 ((TicketService.get_filtered_tickets store f).map
          teamLabel).dedup.length
    ∧ List.Sorted (fun a b => b.ticket_count ≤ a.ticket_count)
        (TicketService.get_team_ticket_counts store f)
    ∧ (∀ p ∈ TicketService.get_team_ticket_counts store f,
        p.ticket_count = (TicketService.get_filtered_tickets store f).countP
          (fun t => teamLabel t == p.team))
    ∧ ((TicketService.get_team_ticket_counts store f).map
        (fun p => p.team)).Nodup
    ∧ (∀ a b : String × Nat, a.2 = b.2 →
        List.Sublist [a, b] (teamCountPairs store f) →
        List.Sublist [TeamTicketCount.mk a.1 a.2, TeamTicketCount.mk b.1 b.2]
          (((teamCountPairs store f).insertionSort countDesc).map
              (fun p => TeamTicketCount.mk p.1 p.2))) := by
  refine ⟨?_, ?_, ?_, ?_, ?_⟩
  · simp [TicketService.get_team_ticket_counts, List.length_take,
      List.length_insertionSort, length_teamCountPairs]
  · have hs := List.sorted_insertionSort countDesc (teamCountPairs store f)
    have hm : (((teamCountPairs store f).insertionSort countDesc).map
        (fun p => TeamTicketCount.mk p.1 p.2)).Pairwise
        (fun a b => b.ticket_count ≤ a.ticket_count) :=
      List.Pairwise.map _ (fun a b h => h) hs
    exact List.Pairwise.sublist (List.take_sublist 10 _) hm
  · intro p hp
    have hp2 := List.mem_of_mem_take hp
    obtain ⟨q, hq, hq2⟩ := List.mem_map.mp hp2
    have hqp : q ∈ teamCountPairs store f :=
      (List.perm_insertionSort countDesc _).subset hq
    have := mem_teamCountPairs_count store f q hqp
    rw [← hq2]
    simpa using this
  · have h2 : ((((teamCountPairs store f).insertionSort countDesc).map
        (fun p => TeamTicketCount.mk p.1 p.2)).map (fun p => p.team)).Nodup := by
      rw [List.map_map]
      have hperm := (List.perm_insertionSort countDesc
        (teamCountPairs store f)).map (fun p : String × Nat => p.1)
      exact hperm.nodup_iff.mpr (nodup_keys_teamCountPairs store f)
    rw [TicketService.get_team_ticket_counts, List.map_take]
    exact List.Nodup.sublist (List.take_sublist 10 _) h2
  · intro a b hab hsub
    have hpw : [a, b].Pairwise countDesc := by
      simp [countDesc, List.pairwise_cons]
      exact hab.ge
    have hsl := List.sublist_insertionSort hpw hsub
    exact hsl.map (fun p => TeamTicketCount.mk p.1 p.2)

/-!
Status-by-severity cross-tab (C7).
-/

/-- The `status_severity_counts` fold written in the generic
single-update shape. -/
theorem sbFold_eq (ts : List ESTicket) :
    ts.foldl sbStep []
      = ts.foldl (fun m t => updD m t.status []
          (fun sc => updD sc (sevLabel t) 0 (fun n => n + 1))) [] := rfl

/--
C7. Claim: the cross-tab has one entry per distinct status of the
filtered set, a null severity is bucketed under the literal label
Unknown, and the counts over all cells sum to the number of filtered
tickets. Stated as: the statuses of the entries are exactly the
distinct statuses observed; every cell holds the number of filtered
tickets with that status whose severity label (null bucketed as
Unknown) is the cell's key; and the grand total is the filtered count.
-/
theorem stacked_bar_correct (store : List ESTicket) (f : FilterParams) :
    ((TicketService.get_stacked_bar_data store f).map
      (fun b => b.status)).Nodup
    ∧ (∀ s, (∃ b ∈ TicketService.get_stacked_bar_data store f,
          b.status = s)
        ↔ ∃ t ∈ TicketService.get_filtered_tickets store f, t.status = s)
    ∧ (∀ b ∈ TicketService.get_stacked_bar_data store f,
        ∀ p ∈ b.severity_counts,
          p.2 = (TicketService.get_filtered_tickets store f).countP
            (fun t => sevLabel t == p.1 && t.status == b.status))
    ∧ ((TicketService.get_stacked_bar_data store f).map
        (fun b => (b.severity_counts.map (fun p => p.2)).sum)).sum
      = (TicketService.get_filtered_tickets store f).length := by
  rw [TicketService.get_stacked_bar_data, sbFold_eq]
  have hnd : (keys ((TicketService.get_filtered_tickets store f).foldl
      (fun m t => updD m t.status []
        (fun sc => updD sc (sevLabel t) 0 (fun n => n + 1))) [])).Nodup :=
    nodup_keys_foldl_updD _ _ _ _ _ (by simp [keys])
  refine ⟨?_, ?_, ?_, ?_⟩
  · simpa [keys, List.map_map] using hnd
  · intro s
    have hm := mem_keys_foldl_updD (fun t : ESTicket => t.status)
      (fun t sc => updD sc (sevLabel t) 0 (fun n => n + 1)) []
      (TicketService.get_filtered_tickets store f) [] s
    simp only [keys, List.mem_map] at hm
    constructor
    · intro ⟨b, hb, hbs⟩
      obtain ⟨q, hq, hq2⟩ := List.mem_map.mp hb
      have : s ∈ List.map Prod.fst ((TicketService.get_filtered_tickets
          store f).foldl (fun m t => updD m t.status []
            (fun sc => updD sc (sevLabel t) 0 (fun n => n + 1))) []) :=
        List.mem_map.mpr ⟨q, hq, by rw [← hbs, ← hq2]⟩
      obtain ⟨x, hx, hxs⟩ := List.mem_map.mp this
      rcases hm.mp ⟨x, hx, hxs⟩ with h | h
      · simp at h
      · simpa using h
    · intro ⟨t, ht, hts⟩
      have hk := hm.mpr (Or.inr ⟨t, ht, hts⟩)
      obtain ⟨q, hq, hq2⟩ := hk
      exact ⟨⟨q.1, q.2⟩, List.mem_map.mpr ⟨q, hq, rfl⟩, hq2⟩
  · intro b hb p hp
    obtain ⟨q, hq, hq2⟩ := List.mem_map.mp hb
    have hlook := lookD_eq_of_mem_nodup _ q.1 q.2 [] hnd (by simpa using hq)
    rw [lookD_foldl_updD] at hlook
    have hb1 : b.status = q.1 := by rw [← hq2]
    have hb2 : b.severity_counts = q.2 := by rw [← hq2]
    rw [hb2] at hp
    rw [← hlook] at hp
    -- the inner dict is itself a generic fold over the status group
    have hndin : (keys (((TicketService.get_filtered_tickets store f).filter
        (fun t => t.status == q.1)).foldl
          (fun sc t => updD sc (sevLabel t) 0 (fun n => n + 1))
          (lookD [] q.1 []))).Nodup :=
      nodup_keys_foldl_updD _ _ _ _ _ (by simp [keys, lookD])
    have hin := lookD_eq_of_mem_nodup _ p.1 p.2 0 hndin (by simpa using hp)
    rw [lookD_foldl_updD] at hin
    have hlen := foldl_add_one
      ((((TicketService.get_filtered_tickets store f).filter
        (fun t => t.status == q.1)).filter
          (fun t => sevLabel t == p.1))) 0
    rw [← hin]
    simp only [lookD] at hlen ⊢
    rw [hlen, ← List.countP_eq_length_filter, List.countP_filter, hb1]
    omega
  · have hsum := sumBy_foldl_updD (fun t : ESTicket => t.status)
      (fun t sc => updD sc (sevLabel t) 0 (fun n => n + 1)) []
      (fun sc => sumBy (fun n => n) sc)
      (fun t sc => sumBy_updD sc (sevLabel t) 0 _ (fun n => n) (fun b => rfl) rfl)
      rfl (TicketService.get_filtered_tickets store f) []
    simpa [sumBy, List.map_map] using hsum

/-- Witness for C7 on the three-ticket sample store: the cross-tab has
an Open entry, so some filtered ticket is Open. -/
theorem stacked_bar_correct_witness :
    ∃ t ∈ TicketService.get_filtered_tickets sampleStore
      FilterParams.empty, t.status = "Open" :=
  ((stacked_bar_correct sampleStore FilterParams.empty).2.1 "Open").mp
    (by decide)

/-!
Time series (C6, C10).
-/

/--
C6. Claim: the time series buckets each filtered ticket independently
by the calendar date of its creation, mitigation and resolution events;
buckets are emitted only for dates with at least one event; and the
points are sorted strictly ascending by ISO-8601 date string. Stated
as: every emitted point carries, for each of the three counters, the
number of filtered tickets whose corresponding event falls on the
point's date, and has at least one event; every event date of every
filtered ticket has a point; and the date strings are sorted.
-/
theorem time_series_buckets (store : List ESTicket) (f : FilterParams) :
    (∀ p ∈ TicketService.get_time_series_data store f,
      p.created = (TicketService.get_filtered_tickets store f).countP
          (fun t => crKey t == p.date)
      ∧ p.mitigated = (TicketService.get_filtered_tickets store f).countP
          (fun t => mitKey t == some p.date)
      ∧ p.resolved = (TicketService.get_filtered_tickets store f).countP
          (fun t => resKey t == some p.date)
      ∧ p.created + p.mitigated + p.resolved ≠ 0)
    ∧ (∀ t ∈ TicketService.get_filtered_tickets store f,
        (∃ p ∈ TicketService.get_time_series_data store f,
          p.date = crKey t)
        ∧ (∀ d, t.mitigated_date = some d →
            ∃ p ∈ TicketService.get_time_series_data store f,
              p.date = d.date.isoformat)
        ∧ (∀ d, t.resolved_date = some d →
            ∃ p ∈ TicketService.get_time_series_data store f,
              p.date = d.date.isoformat))
    ∧ List.Sorted (fun a b : String => a < b)
        ((TicketService.get_time_series_data store f).map
          (fun p => p.date)) := by
  have hres : TicketService.get_time_series_data store f
      = ((keys ((TicketService.get_filtered_tickets store f).foldl
            tsStep [])).insertionSort (fun a b => a ≤ b)).map
          (fun ds =>
            ⟨ds, (lookD ((TicketService.get_filtered_tickets store f).foldl
                    tsStep []) ds DayCounts.zero).created,
                 (lookD ((TicketService.get_filtered_tickets store f).foldl
                    tsStep []) ds DayCounts.zero).mitigated,
                 (lookD ((TicketService.get_filtered_tickets store f).foldl
                    tsStep []) ds DayCounts.zero).resolved⟩) := rfl
  have hperm : List.Perm ((keys ((TicketService.get_filtered_tickets
        store f).foldl tsStep [])).insertionSort (fun a b => a ≤ b))
      (keys ((TicketService.get_filtered_tickets store f).foldl
        tsStep [])) :=
    List.perm_insertionSort _ _
  have hnd : (keys ((TicketService.get_filtered_tickets store f).foldl
      tsStep [])).Nodup :=
    nodup_keys_tsFold _ _ (by simp [keys])
  have hkmem : ∀ a, a ∈ keys ((TicketService.get_filtered_tickets
      store f).foldl tsStep [])
      ↔ ∃ t ∈ TicketService.get_filtered_tickets store f,
          crKey t = a ∨ mitKey t = some a ∨ resKey t = some a := by
    intro a
    rw [mem_keys_tsFold]
    simp [keys]
  have hC : ∀ k, (lookD ((TicketService.get_filtered_tickets
      store f).foldl tsStep []) k DayCounts.zero).created
      = (TicketService.get_filtered_tickets store f).countP
          (fun t => crKey t == k) := by
    intro k
    rw [tsFold_created]
    simp [lookD, DayCounts.zero]
  have hM : ∀ k, (lookD ((TicketService.get_filtered_tickets
      store f).foldl tsStep []) k DayCounts.zero).mitigated
      = (TicketService.get_filtered_tickets store f).countP
          (fun t => mitKey t == some k) := by
    intro k
    rw [tsFold_mitigated]
    simp [lookD, DayCounts.zero]
  have hR : ∀ k, (lookD ((TicketService.get_filtered_tickets
      store f).foldl tsStep []) k DayCounts.zero).resolved
      = (TicketService.get_filtered_tickets store f).countP
          (fun t => resKey t == some k) := by
    intro k
    rw [tsFold_resolved]
    simp [lookD, DayCounts.zero]
  refine ⟨?_, ?_, ?_⟩
  · intro p hp
    rw [hres] at hp
    obtain ⟨k, hk, hkp⟩ := List.mem_map.mp hp
    have hkd : k ∈ keys ((TicketService.get_filtered_tickets
        store f).foldl tsStep []) := hperm.mem_iff.mp hk
    subst hkp
    refine ⟨hC k, hM k, hR k, ?_⟩
    dsimp only
    rcases (hkmem k).mp hkd with ⟨t, ht, hev | hev | hev⟩
    · have : 0 < (TicketService.get_filtered_tickets store f).countP
          (fun t => crKey t == k) :=
        List.countP_pos_iff.mpr ⟨t, ht, by simp [hev]⟩
      rw [hC k]
      omega
    · have : 0 < (TicketService.get_filtered_tickets store f).countP
          (fun t => mitKey t == some k) :=
        List.countP_pos_iff.mpr ⟨t, ht, by simp [hev]⟩
      rw [hM k]
      omega
    · have : 0 < (TicketService.get_filtered_tickets store f).countP
          (fun t => resKey t == some k) :=
        List.countP_pos_iff.mpr ⟨t, ht, by simp [hev]⟩
      rw [hR k]
      omega
  · intro t ht
    have hpoint : ∀ a, a ∈ keys ((TicketService.get_filtered_tickets
        store f).foldl tsStep []) →
        ∃ p ∈ TicketService.get_time_series_data store f, p.date = a := by
      intro a ha
      rw [hres]
      exact ⟨_, List.mem_map.mpr ⟨a, hperm.mem_iff.mpr ha, rfl⟩, rfl⟩
    refine ⟨?_, ?_, ?_⟩
    · exact hpoint _ ((hkmem _).mpr ⟨t, ht, Or.inl rfl⟩)
    · intro d hd
      refine hpoint _ ((hkmem _).mpr ⟨t, ht, Or.inr (Or.inl ?_)⟩)
      rw [mitKey, hd, Option.map_some']
    · intro d hd
      refine hpoint _ ((hkmem _).mpr ⟨t, ht, Or.inr (Or.inr ?_)⟩)
      rw [resKey, hd, Option.map_some']
  · have hmap : (TicketService.get_time_series_data store f).map
        (fun p => p.date)
        = ((keys ((TicketService.get_filtered_tickets store f).foldl
            tsStep [])).insertionSort (fun a b => a ≤ b)) := by
      rw [hres, List.map_map]
      exact List.map_id _
    rw [hmap]
    have hsorted := List.sorted_insertionSort
      (fun a b : String => a ≤ b)
      (keys ((TicketService.get_filtered_tickets store f).foldl
        tsStep []))
    have hndk := hperm.nodup_iff.mpr hnd
    exact List.Sorted.lt_of_le hsorted hndk

/-- Witness for C6 on the three-ticket sample store: the resolution of
`tick1` on 2024-01-02 has its own bucket. -/
theorem time_series_buckets_witness :
    ∃ p ∈ TicketService.get_time_series_data sampleStore
      FilterParams.empty, p.date = (mkDT 2024 1 2).date.isoformat :=
  ((time_series_buckets sampleStore FilterParams.empty).2.1 tick1
    (by decide)).2.2 (mkDT 2024 1 2) rfl

/--
C10. Claim: the time series conserves the filtered set: the created
counters sum to the number of filtered tickets, the mitigated counters
to the number of filtered tickets with a mitigated timestamp, and the
resolved counters to the number with a resolved timestamp.
-/
theorem time_series_conservation (store : List ESTicket)
    (f : FilterParams) :
    ((TicketService.get_time_series_data store f).map
        (fun p => p.created)).sum
      = (TicketService.get_filtered_tickets store f).length
    ∧ ((TicketService.get_time_series_data store f).map
        (fun p => p.mitigated)).sum
      = (TicketService.get_filtered_tickets store f).countP
          (fun t => t.mitigated_date.isSome)
    ∧ ((TicketService.get_time_series_data store f).map
        (fun p => p.resolved)).sum
      = (TicketService.get_filtered_tickets store f).countP
          (fun t => t.resolved_date.isSome) := by
  have hnd : (keys ((TicketService.get_filtered_tickets store f).foldl
      tsStep [])).Nodup :=
    nodup_keys_tsFold _ _ (by simp [keys])
  have hkmem : ∀ a, a ∈ keys ((TicketService.get_filtered_tickets
      store f).foldl tsStep [])
      ↔ ∃ t ∈ TicketService.get_filtered_tickets store f,
          crKey t = a ∨ mitKey t = some a ∨ resKey t = some a := by
    intro a
    rw [mem_keys_tsFold]
    simp [keys]
  have hperm2 : ∀ g : String → Nat,
      (((keys ((TicketService.get_filtered_tickets store f).foldl
          tsStep [])).insertionSort (fun a b => a ≤ b)).map g).sum
      = ((keys ((TicketService.get_filtered_tickets store f).foldl
          tsStep [])).map g).sum := by
    intro g
    exact ((List.perm_insertionSort _ _).map g).sum_eq
  refine ⟨?_, ?_, ?_⟩
  · have hmap : (TicketService.get_time_series_data store f).map
        (fun p => p.created)
        = ((keys ((TicketService.get_filtered_tickets store f).foldl
            tsStep [])).insertionSort (fun a b => a ≤ b)).map
          (fun k => (TicketService.get_filtered_tickets store f).countP
            (fun t => crKey t == k)) := by
      rw [show TicketService.get_time_series_data store f
          = ((keys ((TicketService.get_filtered_tickets store f).foldl
              tsStep [])).insertionSort (fun a b => a ≤ b)).map
            (fun ds =>
              ⟨ds, (lookD ((TicketService.get_filtered_tickets
                      store f).foldl tsStep []) ds DayCounts.zero).created,
                   (lookD ((TicketService.get_filtered_tickets
                      store f).foldl tsStep []) ds DayCounts.zero).mitigated,
                   (lookD ((TicketService.get_filtered_tickets
                      store f).foldl tsStep []) ds DayCounts.zero).resolved⟩)
          from rfl, List.map_map]
      apply List.map_congr_left
      intro k _
      show (lookD ((TicketService.get_filtered_tickets store f).foldl
        tsStep []) k DayCounts.zero).created = _
      rw [tsFold_created]
      simp [lookD, DayCounts.zero]
    rw [hmap, hperm2]
    have hbr : ∀ k, (TicketService.get_filtered_tickets store f).countP
        (fun t => crKey t == k)
        = (TicketService.get_filtered_tickets store f).countP
            (fun t => (some (crKey t) : Option String) == some k) := by
      intro k
      apply List.countP_congr
      intro t _
      simp
    rw [List.map_congr_left (fun k _ => hbr k)]
    rw [countP_key_sum (TicketService.get_filtered_tickets store f)
      (fun t => some (crKey t)) _ hnd
      (fun t ht s hs => (hkmem s).mpr
        ⟨t, ht, Or.inl (Option.some.inj hs)⟩)]
    simp
  · have hmap : (TicketService.get_time_series_data store f).map
        (fun p => p.mitigated)
        = ((keys ((TicketService.get_filtered_tickets store f).foldl
            tsStep [])).insertionSort (fun a b => a ≤ b)).map
          (fun k => (TicketService.get_filtered_tickets store f).countP
            (fun t => mitKey t == some k)) := by
      rw [show TicketService.get_time_series_data store f
          = ((keys ((TicketService.get_filtered_tickets store f).foldl
              tsStep [])).insertionSort (fun a b => a ≤ b)).map
            (fun ds =>
              ⟨ds, (lookD ((TicketService.get_filtered_tickets
                      store f).foldl tsStep []) ds DayCounts.zero).created,
                   (lookD ((TicketService.get_filtered_tickets
                      store f).foldl tsStep []) ds DayCounts.zero).mitigated,
                   (lookD ((TicketService.get_filtered_tickets
                      store f).foldl tsStep []) ds DayCounts.zero).resolved⟩)
          from rfl, List.map_map]
      apply List.map_congr_left
      intro k _
      show (lookD ((TicketService.get_filtered_tickets store f).foldl
        tsStep []) k DayCounts.zero).mitigated = _
      rw [tsFold_mitigated]
      simp [lookD, DayCounts.zero]
    rw [hmap, hperm2]
    rw [countP_key_sum (TicketService.get_filtered_tickets store f)
      mitKey _ hnd
      (fun t ht s hs => (hkmem s).mpr ⟨t, ht, Or.inr (Or.inl hs)⟩)]
    apply List.countP_congr
    intro t _
    simp [mitKey]
  · have hmap : (TicketService.get_time_series_data store f).map
        (fun p => p.resolved)
        = ((keys ((TicketService.get_filtered_tickets store f).foldl
            tsStep [])).insertionSort (fun a b => a ≤ b)).map
          (fun k => (TicketService.get_filtered_tickets store f).countP
            (fun t => resKey t == some k)) := by
      rw [show TicketService.get_time_series_data store f
          = ((keys ((TicketService.get_filtered_tickets store f).foldl
              tsStep [])).insertionSort (fun a b => a ≤ b)).map
            (fun ds =>
              ⟨ds, (lookD ((TicketService.get_filtered_tickets
                      store f).foldl tsStep []) ds DayCounts.zero).created,
                   (lookD ((TicketService.get_filtered_tickets
                      store f).foldl tsStep []) ds DayCounts.zero).mitigated,
                   (lookD ((TicketService.get_filtered_tickets
                      store f).foldl tsStep []) ds DayCounts.zero).resolved⟩)
          from rfl, List.map_map]
      apply List.map_congr_left
      intro k _
      show (lookD ((TicketService.get_filtered_tickets store f).foldl
        tsStep []) k DayCounts.zero).resolved = _
      rw [tsFold_resolved]
      simp [lookD, DayCounts.zero]
    rw [hmap, hperm2]
    rw [countP_key_sum (TicketService.get_filtered_tickets store f)
      resKey _ hnd
      (fun t ht s hs => (hkmem s).mpr ⟨t, ht, Or.inr (Or.inr hs)⟩)]
    apply List.countP_congr
    intro t _
    simp [resKey]

/-- Witness for C2 (amended) on the counterexample store: the Unknown
entry of the ranking counts both the empty-string and the null team. -/
theorem team_counts_amended_witness :
    (TeamTicketCount.mk "Unknown" 2).ticket_count
      = (TicketService.get_filtered_tickets cexTeamStore
          FilterParams.empty).countP
          (fun t => teamLabel t == (TeamTicketCount.mk "Unknown" 2).team) :=
  (team_counts_amended cexTeamStore FilterParams.empty).2.2.1
    (TeamTicketCount.mk "Unknown" 2) (by decide)
